import Mathlib

/-!
dbxtool: the EFI signature list iterators of `src/iter.c`

A shallow embedding of `esl_iter` (the list iterator) and `esd_iter` (the entry
iterator), for an LP64 little-endian target (x86_64 Linux): `size_t` and
pointers are 64 bits wide, `off_t` is a signed 64-bit integer, `int` and
`unsigned int` are 32 bits wide.

* Memory is a flat byte map `mem : Nat → Nat` (address to byte); the caller's
  buffer is the window `[buf, buf + len)` of it.  The iterators never store to
  that memory, so it is a fixed parameter.
* A pointer is its address, `0` being `NULL`.
* `*out` parameters the code only stores to are returned as `Option`
  (`none`: nothing was stored); parameters the code also loads from
  (`*data`, `*len` of `esl_iter_next`, `*type` of `esd_iter_next`) are
  passed in and handed back.
* `warnx` diagnostics are collected in a log; `errx`/`err` end the process,
  which is the outcome `Outcome.exit`.  The `vprintf` traces are left out.
-/

namespace Dbxtool

/-! ## Machine arithmetic -/

/-- Value of `EINVAL` on Linux. -/
def EINVAL : Int := 22

/-- Number of values of a 64-bit word (`size_t`, `intptr_t`, pointers). -/
def WORD64 : Nat := 2 ^ 64

/-- Number of values of a 32-bit word (`uint32_t`, `unsigned int`). -/
def WORD32 : Nat := 2 ^ 32

/-- Unsigned 64-bit addition, as for `size_t` and `intptr_t` bit patterns. -/
def add64 (a b : Nat) : Nat := (a + b) % WORD64

/-- Unsigned 64-bit subtraction `a - b` of `size_t` operands. -/
def sub64 (a b : Nat) : Nat := (a % WORD64 + (WORD64 - b % WORD64)) % WORD64

/-- Conversion of a signed integer to `size_t` / `unsigned long`. -/
def to_u64 (x : Int) : Nat := (x % (WORD64 : Int)).toNat

/-- Conversion of a signed integer to `uint32_t`, the cast `(uint32_t)x`. -/
def to_u32 (x : Int) : Nat := (x % (WORD32 : Int)).toNat

/-- Two's complement reading of a 64-bit pattern, for `off_t` arithmetic. -/
def to_s64 (x : Int) : Int :=
  let r := x % (WORD64 : Int)
  if r < 2 ^ 63 then r else r - (WORD64 : Int)

/-- Two's complement reading of a 32-bit pattern, for `int` and `int32_t`. -/
def to_s32 (x : Int) : Int :=
  let r := x % (WORD32 : Int)
  if r < 2 ^ 31 then r else r - (WORD32 : Int)

/-! ## Memory and the on-disk layout -/

/-- A 128-bit identifier, as its 16 bytes in memory order. -/
abbrev efi_guid_t := List Nat

/-- The byte stored at address `p`. -/
def read_u8 (mem : Nat → Nat) (p : Nat) : Nat := mem p % 256

/-- A little-endian `uint32_t` load from address `p`. -/
def read_u32 (mem : Nat → Nat) (p : Nat) : Nat :=
  read_u8 mem p + 256 * read_u8 mem (p + 1) + 65536 * read_u8 mem (p + 2)
    + 16777216 * read_u8 mem (p + 3)

/-- A 16-byte load from address `p`. -/
def read_guid (mem : Nat → Nat) (p : Nat) : efi_guid_t :=
  (List.range 16).map (fun k => read_u8 mem (p + k))

/-- Modelled from the spec: `sizeof (EFI_SIGNATURE_LIST)` of the absent `esl.h`,
the 28-byte fixed list header (16-byte type, three 4-byte sizes). -/
def sizeof_EFI_SIGNATURE_LIST : Nat := 28

/-- Modelled from the spec: `sizeof (EFI_SIGNATURE_DATA)` of the absent `esl.h`,
the 16-byte owner that starts every entry (the payload is a flexible tail). -/
def sizeof_EFI_SIGNATURE_DATA : Nat := 16

/-- Size of `efi_guid_t`, also `sizeof (esd->SignatureOwner)`. -/
def sizeof_efi_guid_t : Nat := 16

/-- Field `SignatureType` of the list header at address `esl` (offset 0). -/
def SignatureType (mem : Nat → Nat) (esl : Nat) : efi_guid_t := read_guid mem esl

/-- Field `SignatureListSize` of the list header at `esl` (offset 16). -/
def SignatureListSize (mem : Nat → Nat) (esl : Nat) : Nat := read_u32 mem (esl + 16)

/-- Field `SignatureHeaderSize` of the list header at `esl` (offset 20). -/
def SignatureHeaderSize (mem : Nat → Nat) (esl : Nat) : Nat := read_u32 mem (esl + 20)

/-- Field `SignatureSize` of the list header at `esl` (offset 24). -/
def SignatureSize (mem : Nat → Nat) (esl : Nat) : Nat := read_u32 mem (esl + 24)

/-- Field `SignatureOwner` of the entry at address `esd` (offset 0). -/
def SignatureOwner (mem : Nat → Nat) (esd : Nat) : efi_guid_t := read_guid mem esd

/-- Address of field `SignatureData` of the entry at `esd` (offset 16). -/
def SignatureData (esd : Nat) : Nat := add64 esd sizeof_efi_guid_t

/-- The test `!memcmp(&zeroed, p, sizeof (EFI_SIGNATURE_LIST))`: the 28 bytes at
`p` are all zero. -/
def header_is_zero (mem : Nat → Nat) (p : Nat) : Bool :=
  (List.range sizeof_EFI_SIGNATURE_LIST).all (fun k => read_u8 mem (p + k) == 0)

/-- Memory holding `bytes` from address `base` on, and zero elsewhere. -/
def load (base : Nat) (bytes : List Nat) : Nat → Nat :=
  fun a => if base ≤ a then bytes.getD (a - base) 0 else 0

/-- The four bytes of a little-endian `uint32_t`. -/
def le32 (n : Nat) : List Nat :=
  [n % 256, n / 256 % 256, n / 65536 % 256, n / 16777216 % 256]

/-! ## External collaborators and outcomes -/

/-- What the code takes from outside `iter.c`: the memory, the DER length parser
`GetASN1SequenceSize (pointer, size)` and the constant `efi_guid_x509_cert`. -/
structure Env where
  mem : Nat → Nat
  GetASN1SequenceSize : Nat → Nat → Int
  efi_guid_x509_cert : efi_guid_t

/-- The comparator `efi_guid_cmp` of the efivar library: zero exactly on equal
identifiers. -/
def efi_guid_cmp (a b : efi_guid_t) : Int := if a = b then 0 else 1

/-- A diagnostic written by `warnx` or `errx`. -/
inductive Diag where
  | not_der
  | asn1_mismatch (asn1size : Int) (expected : Nat)
  | malformed (left : Nat) (element : Nat)
  deriving DecidableEq, Repr

/-- How a call ends: it returns a value, or the process ends with a status. -/
inductive Outcome (α : Type) where
  | ret (val : α) (log : List Diag)
  | exit (status : Int) (log : List Diag)
  deriving DecidableEq, Repr

/-- The outcome without its diagnostics. -/
def Outcome.result {α : Type} : Outcome α → Except Int α
  | .ret v _ => .ok v
  | .exit s _ => .error s

/-- The diagnostics of an outcome. -/
def Outcome.log {α : Type} : Outcome α → List Diag
  | .ret _ l => l
  | .exit _ l => l

/-! ## The list iterator `esl_iter` -/

/-- The C `struct esl_iter`. -/
structure esl_iter where
  buf : Nat
  len : Nat
  offset : Int
  esl : Nat
  deriving DecidableEq, Repr

/-- Result of a constructor: return code, the value stored to `errno` if any,
and the iterator stored to `*iter` if any. -/
structure new_ret (α : Type) where
  rc : Int
  errno : Option Int
  iter : Option α
  deriving DecidableEq, Repr

/-- The C `esl_iter_new`; `calloc_ok` says whether `calloc` returns memory. -/
def esl_iter_new (calloc_ok : Bool) (buf len : Nat) : Outcome (new_ret esl_iter) :=
  if len < sizeof_EFI_SIGNATURE_LIST + sizeof_EFI_SIGNATURE_DATA then
    .ret ⟨-1, some EINVAL, none⟩ []
  else if !calloc_ok then
    .exit 1 []
  else
    .ret ⟨0, none, some { buf := buf, len := len, offset := 0, esl := 0 }⟩ []

/-- Result of an accessor: return code, the value stored to `errno` if any, and
the value stored through the output pointer if any. -/
structure acc_ret (α : Type) where
  rc : Int
  errno : Option Int
  out : Option α
  deriving DecidableEq, Repr

/-- The C `esl_list_size`. -/
def esl_list_size (mem : Nat → Nat) (iter : Option esl_iter) : acc_ret Nat :=
  match iter with
  | none => ⟨-1, some EINVAL, none⟩
  | some it =>
    if it.esl = 0 then ⟨-1, some EINVAL, none⟩
    else if SignatureListSize mem it.esl < sizeof_EFI_SIGNATURE_LIST then
      ⟨-1, some EINVAL, none⟩
    else ⟨0, none, some (SignatureListSize mem it.esl)⟩

/-- The C `esl_header_size`. -/
def esl_header_size (mem : Nat → Nat) (iter : Option esl_iter) : acc_ret Nat :=
  match iter with
  | none => ⟨-1, some EINVAL, none⟩
  | some it =>
    if it.esl = 0 then ⟨-1, some EINVAL, none⟩
    else ⟨0, none, some (SignatureHeaderSize mem it.esl)⟩

/-- The C `esl_sig_size`. -/
def esl_sig_size (mem : Nat → Nat) (iter : Option esl_iter) : acc_ret Nat :=
  match iter with
  | none => ⟨-1, some EINVAL, none⟩
  | some it =>
    if it.esl = 0 then ⟨-1, some EINVAL, none⟩
    else if SignatureSize mem it.esl < 1 then ⟨-1, some EINVAL, none⟩
    else ⟨0, none, some (SignatureSize mem it.esl)⟩

/-- The C `esl_get_type`. -/
def esl_get_type (mem : Nat → Nat) (iter : Option esl_iter) : acc_ret efi_guid_t :=
  match iter with
  | none => ⟨-1, some EINVAL, none⟩
  | some it =>
    if it.esl = 0 then ⟨-1, some EINVAL, none⟩
    else ⟨0, none, some (SignatureType mem it.esl)⟩

/-- What `esl_iter_next` hands back: the return code, the iterator after the
call, and `*type`, `*data`, `*len` after the call. -/
structure esl_next_ret where
  rc : Int
  iter : Option esl_iter
  type : efi_guid_t
  data : Nat
  len : Nat
  deriving DecidableEq, Repr

/-- Lines 255 to 273 of `esl_iter_next`: the sentinel test, the bounds test and
the stores to the outputs, with `iter->esl` already set. -/
def esl_iter_next_yield (mem : Nat → Nat) (it : esl_iter) (type : efi_guid_t)
    (data len : Nat) (log : List Diag) : Outcome esl_next_ret :=
  if header_is_zero mem it.esl then
    .ret ⟨0, some it, type, data, len⟩ log
  else if SignatureListSize mem it.esl > to_u64 ((it.len : Int) - it.offset) then
    .ret ⟨-EINVAL, some it, type, data, len⟩ log
  else
    .ret ⟨1, some it, SignatureType mem it.esl,
      add64 (add64 it.esl sizeof_EFI_SIGNATURE_LIST) (SignatureHeaderSize mem it.esl),
      sub64 (SignatureListSize mem it.esl) sizeof_EFI_SIGNATURE_LIST⟩ log

/-- The advisory DER check of `esl_iter_next` (lines 229 to 246): the warnings
it emits for a list of type `type`, given the caller's `*data` and `*len`. -/
def esl_x509_check (env : Env) (it : esl_iter) (type : efi_guid_t) (data len : Nat) :
    List Diag :=
  if efi_guid_cmp type env.efi_guid_x509_cert = 0 then
    let asn1size := to_s32 (env.GetASN1SequenceSize (add64 data sizeof_efi_guid_t)
      (sub64 len sizeof_efi_guid_t))
    if asn1size < 0 then [Diag.not_der]
    else if to_u32 asn1size ≠ sub64 (SignatureSize env.mem it.esl) sizeof_efi_guid_t then
      [Diag.asn1_mismatch asn1size (sub64 (SignatureSize env.mem it.esl) sizeof_efi_guid_t)]
    else []
  else []

/-- The C `esl_iter_next`. -/
def esl_iter_next (env : Env) (iter : Option esl_iter) (type : efi_guid_t)
    (data len : Nat) : Outcome esl_next_ret :=
  match iter with
  | none => .ret ⟨-EINVAL, none, type, data, len⟩ []
  | some it =>
    if it.offset < 0 then .ret ⟨-EINVAL, some it, type, data, len⟩ []
    else if to_u32 it.offset ≥ it.len then .ret ⟨-EINVAL, some it, type, data, len⟩ []
    else if it.esl = 0 then
      esl_iter_next_yield env.mem { it with esl := it.buf } type data len []
    else
      let cur := (esl_get_type env.mem (some it)).out.getD []
      if to_u64 ((it.len : Int) - it.offset) > SignatureListSize env.mem it.esl then
        .exit 1 [Diag.malformed (to_u64 ((it.len : Int) - it.offset))
          (SignatureListSize env.mem it.esl)]
      else
        let log := esl_x509_check env it cur data len
        let offset := to_s64 (it.offset + SignatureListSize env.mem it.esl)
        if to_u32 offset ≥ it.len then
          .ret ⟨0, some { it with offset := offset }, type, data, len⟩ log
        else
          esl_iter_next_yield env.mem
            { it with offset := offset, esl := to_u64 ((it.buf : Int) + offset) }
            type data len log

/-! ## The entry iterator `esd_iter` -/

/-- The C `struct esd_iter`; `iter` is `none` for a `NULL` list iterator. -/
structure esd_iter where
  iter : Option esl_iter
  line : Int
  esd : Nat
  len : Nat
  nmemb : Nat
  i : Nat
  deriving DecidableEq, Repr

/-- The C `esd_iter_new`; the two flags say whether the `calloc` of the entry
iterator and the one inside `esl_iter_new` return memory. -/
def esd_iter_new (calloc_ok calloc_ok2 : Bool) (buf len : Nat) :
    Outcome (new_ret esd_iter) :=
  if len < sizeof_EFI_SIGNATURE_LIST + sizeof_EFI_SIGNATURE_DATA then
    .ret ⟨-1, some EINVAL, none⟩ []
  else if !calloc_ok then
    .exit 1 []
  else
    match esl_iter_new calloc_ok2 buf len with
    | .exit s log => .exit s log
    | .ret r log =>
      if r.rc < 0 then .ret ⟨-1, r.errno, none⟩ log
      else
        .ret ⟨0, r.errno,
          some { iter := r.iter, line := 0, esd := 0, len := 0, nmemb := 0,
                 i := to_u32 (-1) }⟩ log

/-- What `esd_iter_next` hands back: the return code, the value stored to
`errno` if any, the iterator after the call, `*type` after the call, and the
values stored to `*owner`, `*data` and `*len` if any. -/
structure esd_next_ret where
  rc : Int
  errno : Option Int
  iter : Option esd_iter
  type : efi_guid_t
  owner : Option efi_guid_t
  data : Option Nat
  len : Option Nat
  deriving DecidableEq, Repr

/-- The advisory DER check of `esd_iter_next` (lines 102 to 118): the warnings
it emits once a list of type `type` was pulled. -/
def esd_x509_check (env : Env) (it : esd_iter) (type : efi_guid_t) : List Diag :=
  if efi_guid_cmp type env.efi_guid_x509_cert = 0 then
    let asn1size := to_s32 (env.GetASN1SequenceSize (SignatureData it.esd)
      (sub64 it.len sizeof_efi_guid_t))
    if asn1size < 0 then [Diag.not_der]
    else if to_u32 asn1size ≠ sub64 it.len sizeof_efi_guid_t then
      [Diag.asn1_mismatch asn1size (sub64 it.len sizeof_efi_guid_t)]
    else []
  else []

/-- Lines 147 to 153 of `esd_iter_next`: the stores of the type, the owner, the
payload pointer and the payload length, for the per-entry size `ss`. -/
def esd_iter_next_yield (mem : Nat → Nat) (it : esd_iter) (type : efi_guid_t)
    (ss : Nat) (log : List Diag) : Outcome esd_next_ret :=
  let t := esl_get_type mem it.iter
  if t.rc < 0 then .ret ⟨t.rc, t.errno, some it, type, none, none, none⟩ log
  else
    .ret ⟨1, none, some it, t.out.getD type, some (SignatureOwner mem it.esd),
      some (SignatureData it.esd), some (sub64 ss sizeof_efi_guid_t)⟩ log

/-- Lines 102 to 137 of `esd_iter_next`, after a list was pulled with success:
the advisory check, the three accessors, the divisibility test and the entry
count, then the stores of lines 147 to 153. -/
def esd_iter_next_pulled (env : Env) (it : esd_iter) (type : efi_guid_t)
    (log : List Diag) : Outcome esd_next_ret :=
  let log := log ++ esd_x509_check env it type
  let sls := esl_list_size env.mem it.iter
  if sls.rc < 0 then .ret ⟨sls.rc, sls.errno, some it, type, none, none, none⟩ log
  else
    let slh := esl_header_size env.mem it.iter
    if slh.rc < 0 then .ret ⟨slh.rc, slh.errno, some it, type, none, none, none⟩ log
    else
      let ss := esl_sig_size env.mem it.iter
      if ss.rc < 0 then .ret ⟨ss.rc, ss.errno, some it, type, none, none, none⟩ log
      else
        let region := sub64 (sub64 (sls.out.getD 0) sizeof_EFI_SIGNATURE_LIST)
          (slh.out.getD 0)
        if region % (ss.out.getD 0) ≠ 0 then
          .ret ⟨-EINVAL, none, some it, type, none, none, none⟩ log
        else
          esd_iter_next_yield env.mem { it with nmemb := region / (ss.out.getD 0) }
            type (ss.out.getD 0) log

/-- The C `esd_iter_next`. -/
def esd_iter_next (env : Env) (iter : Option esd_iter) (type : efi_guid_t) :
    Outcome esd_next_ret :=
  match iter with
  | none => .ret ⟨-EINVAL, none, none, type, none, none, none⟩ []
  | some it0 =>
    if it0.iter = none then .ret ⟨-EINVAL, none, some it0, type, none, none, none⟩ []
    else
      let it := { it0 with line := to_s32 (it0.line + 1), i := (it0.i + 1) % WORD32 }
      if it.i = it.nmemb then
        match esl_iter_next env it.iter type it.esd it.len with
        | .exit s log => .exit s log
        | .ret r log =>
          let it := { it with i := 0, iter := r.iter, esd := r.data, len := r.len }
          if r.rc < 1 then .ret ⟨r.rc, none, some it, r.type, none, none, none⟩ log
          else esd_iter_next_pulled env it r.type log
      else
        let ss := esl_sig_size env.mem it.iter
        if ss.rc < 0 then .ret ⟨ss.rc, ss.errno, some it, type, none, none, none⟩ []
        else
          esd_iter_next_yield env.mem { it with esd := add64 it.esd (ss.out.getD 0) }
            type (ss.out.getD 0) []

/-- The C `esd_iter_get_line`: return code and the value stored to `errno`. -/
def esd_iter_get_line (iter : Option esd_iter) : Int × Option Int :=
  match iter with
  | none => (-1, some EINVAL)
  | some it => (it.line, none)

/-! ## Call sequences -/

/-- Outcome of call number `k + 1` in a run of successive `esl_iter_next` calls
on one iterator with the same output pointers; a run ends when the process
does. -/
def esl_nth (env : Env) (iter : Option esl_iter) (type : efi_guid_t) (data len : Nat) :
    Nat → Outcome esl_next_ret
  | 0 => esl_iter_next env iter type data len
  | k + 1 =>
    match esl_iter_next env iter type data len with
    | .ret r _ => esl_nth env r.iter r.type r.data r.len k
    | .exit s log => .exit s log

/-- Outcome of call number `k + 1` in a run of successive `esd_iter_next` calls
on one iterator with the same output pointers; a run ends when the process
does. -/
def esd_nth (env : Env) (iter : Option esd_iter) (type : efi_guid_t) :
    Nat → Outcome esd_next_ret
  | 0 => esd_iter_next env iter type
  | k + 1 =>
    match esd_iter_next env iter type with
    | .ret r _ => esd_nth env r.iter r.type k
    | .exit s log => .exit s log

/-- The entry iterator that `esd_iter_new` builds over `[buf, buf + len)`. -/
def esd_fresh (buf len : Nat) : esd_iter :=
  { iter := some { buf := buf, len := len, offset := 0, esl := 0 },
    line := 0, esd := 0, len := 0, nmemb := 0, i := to_u32 (-1) }

/-- The list iterator that `esl_iter_new` builds over `[buf, buf + len)`. -/
def esl_fresh (buf len : Nat) : esl_iter :=
  { buf := buf, len := len, offset := 0, esl := 0 }

/-- A signature list as bytes: the fixed header with the given fields, the
header blob, then the entries region. -/
def esl_bytes (type : efi_guid_t) (total hdr sig : Nat) (blob entries : List Nat) :
    List Nat :=
  type ++ le32 total ++ le32 hdr ++ le32 sig ++ blob ++ entries

/-- An environment over `bytes` loaded at address `base`, with a DER parser
that returns the constant `asn1`. -/
def env_of (base : Nat) (bytes : List Nat) (asn1 : Int) (x509 : efi_guid_t) : Env :=
  { mem := load base bytes, GetASN1SequenceSize := fun _ _ => asn1,
    efi_guid_x509_cert := x509 }


/-! ## Predicates and sample buffers used by the statements -/

/-- The yielded entry lies inside the buffer `[buf, buf + len)`: the owner, the
16 bytes before the payload pointer, starts at offset 28 or later, and the
payload ends at or before the end of the buffer. -/
def entry_in_buffer (buf len : Nat) (r : esd_next_ret) : Bool :=
  match r.data, r.len with
  | some d, some n => decide (buf + 28 + 16 ≤ d) && decide (d + n ≤ buf + len)
  | _, _ => false

/-- The return codes `esl_iter_next` can hand to its caller: success,
end-of-sequence, `-EINVAL`. -/
def esl_rc_ok (rc : Int) : Bool := rc == 1 || rc == 0 || rc == -EINVAL

/-- A type identifier that is not the certificate type of the samples. -/
def sample_type : efi_guid_t := List.replicate 16 0xA5

/-- The certificate type identifier `efi_guid_x509_cert`, as bytes in memory. -/
def sample_x509 : efi_guid_t :=
  [0xa1, 0x59, 0xc0, 0xa5, 0xe4, 0x94, 0xa7, 0x4a, 0x87, 0xb5, 0xab, 0x15, 0x5c, 0x2b,
   0xf0, 0x72]

/-- Address at which the sample buffers are loaded. -/
def sample_base : Nat := 4096

/-- A 44-byte buffer: one list with total size 44, no header blob and per-entry
size 8, so that the 16-byte entries region divides into two 8-byte entries. -/
def short_entry_buf : List Nat := esl_bytes sample_type 44 0 8 [] (List.range 16)

/-- A 92-byte buffer: the list of the specification's example, two entries of
32 bytes after an empty header blob. -/
def two_entry_buf : List Nat := esl_bytes sample_type 92 0 32 [] (List.range 64)

/-- A 120-byte buffer: two well-formed lists of one 32-byte entry each. -/
def two_list_buf : List Nat :=
  esl_bytes sample_type 60 0 32 [] (List.range 32)
    ++ esl_bytes sample_x509 60 0 32 [] (List.replicate 32 0x30)

/-- A 93-byte buffer: one list whose 65-byte entries region is not a multiple
of its per-entry size 32. -/
def ragged_buf : List Nat := esl_bytes sample_type 93 0 32 [] (List.range 65)

/-- A 44-byte buffer whose header declares a total size of 1000 bytes. -/
def oversized_buf : List Nat := esl_bytes sample_type 1000 0 32 [] (List.range 16)

/-- An 88-byte buffer: one well-formed list of one 32-byte entry, then 28 zero
bytes. -/
def sentinel_buf : List Nat :=
  esl_bytes sample_type 60 0 32 [] (List.range 32) ++ List.replicate 28 0

/-- A 61-byte buffer: one well-formed list of one 32-byte entry, then one
further byte. -/
def trailing_buf : List Nat := esl_bytes sample_type 60 0 32 [] (List.range 32) ++ [0xFF]

/-- A 60-byte buffer: one certificate-type list of one 32-byte entry. -/
def cert_buf : List Nat := esl_bytes sample_x509 60 0 32 [] (List.replicate 32 0x30)

/-- The environment over a sample buffer, with a DER parser that fails. -/
def sample_env (bytes : List Nat) : Env := env_of sample_base bytes (-1) sample_x509

/-- A 64-byte buffer: one well-formed list with a 4-byte header blob and one
32-byte entry. -/
def blob_buf : List Nat := esl_bytes sample_type 64 4 32 [1, 2, 3, 4] (List.range 32)

/-- A 44-byte buffer: one well-formed list with a 16-byte header blob and no
entry (total size 28 + 16), per-entry size 32. -/
def empty_list_buf : List Nat :=
  esl_bytes sample_type 44 16 32 (List.replicate 16 0xEE) []

/-- A 44-byte buffer whose list declares total size 44 and a header blob of 48
bytes, more than the 16 bytes that follow the fixed header; per-entry size 32. -/
def negative_region_buf : List Nat := esl_bytes sample_type 44 48 32 [] (List.range 16)

/-- A 60-byte buffer whose list declares the per-entry size 0. -/
def zero_sig_buf : List Nat := esl_bytes sample_type 60 0 0 [] (List.range 32)


/-! ## Arithmetic and memory lemmas -/

theorem to_u64_natCast (n : Nat) (h : n < 2 ^ 64) : to_u64 (n : Int) = n := by
  unfold to_u64 WORD64; omega

theorem to_u32_zero : to_u32 0 = 0 := by decide

theorem sub64_of_le (a b : Nat) (h : b ≤ a) (ha : a < 2 ^ 64) : sub64 a b = a - b := by
  unfold sub64 WORD64; omega

theorem add64_of_lt (a b : Nat) (h : a + b < 2 ^ 64) : add64 a b = a + b := by
  unfold add64 WORD64; omega

theorem read_u8_lt (mem : Nat → Nat) (p : Nat) : read_u8 mem p < 256 := by
  unfold read_u8; omega

theorem read_u32_lt (mem : Nat → Nat) (p : Nat) : read_u32 mem p < 2 ^ 32 := by
  have h0 := read_u8_lt mem p
  have h1 := read_u8_lt mem (p + 1)
  have h2 := read_u8_lt mem (p + 2)
  have h3 := read_u8_lt mem (p + 3)
  unfold read_u32; omega

theorem SignatureListSize_lt (mem : Nat → Nat) (p : Nat) :
    SignatureListSize mem p < 2 ^ 32 := read_u32_lt mem (p + 16)

theorem SignatureSize_lt (mem : Nat → Nat) (p : Nat) :
    SignatureSize mem p < 2 ^ 32 := read_u32_lt mem (p + 24)

/-- An all-zero header has a zero per-entry size field. -/
theorem SignatureSize_of_header_is_zero (mem : Nat → Nat) (p : Nat)
    (h : header_is_zero mem p = true) : SignatureSize mem p = 0 := by
  unfold header_is_zero sizeof_EFI_SIGNATURE_LIST at h
  rw [List.all_eq_true] at h
  have h24 := h 24 (by simp)
  have h25 := h 25 (by simp)
  have h26 := h 26 (by simp)
  have h27 := h 27 (by simp)
  simp only [beq_iff_eq] at h24 h25 h26 h27
  unfold SignatureSize read_u32
  simp only [Nat.add_assoc, Nat.reduceAdd] at *
  omega

/-! ## Outcomes up to diagnostics -/

theorem Outcome.result_eq_cases {α : Type} {o₁ o₂ : Outcome α}
    (h : o₁.result = o₂.result) :
    (∃ v l₁ l₂, o₁ = .ret v l₁ ∧ o₂ = .ret v l₂) ∨
    (∃ s l₁ l₂, o₁ = .exit s l₁ ∧ o₂ = .exit s l₂) := by
  cases o₁ <;> cases o₂ <;> simp [Outcome.result] at h
  · subst h; exact Or.inl ⟨_, _, _, rfl, rfl⟩
  · subst h; exact Or.inr ⟨_, _, _, rfl, rfl⟩

theorem esl_iter_next_yield_result (mem : Nat → Nat) (it : esl_iter) (t : efi_guid_t)
    (d n : Nat) (l₁ l₂ : List Diag) :
    (esl_iter_next_yield mem it t d n l₁).result
      = (esl_iter_next_yield mem it t d n l₂).result := by
  unfold esl_iter_next_yield
  split_ifs <;> rfl

theorem esl_iter_next_result_indep (mem : Nat → Nat) (x : efi_guid_t)
    (f g : Nat → Nat → Int) (iter : Option esl_iter) (t : efi_guid_t) (d n : Nat) :
    (esl_iter_next ⟨mem, f, x⟩ iter t d n).result
      = (esl_iter_next ⟨mem, g, x⟩ iter t d n).result := by
  unfold esl_iter_next
  cases iter with
  | none => rfl
  | some it =>
    simp only []
    split_ifs <;> first | rfl | exact esl_iter_next_yield_result _ _ _ _ _ _ _

theorem esd_iter_next_yield_result (mem : Nat → Nat) (it : esd_iter) (t : efi_guid_t)
    (ss : Nat) (l₁ l₂ : List Diag) :
    (esd_iter_next_yield mem it t ss l₁).result
      = (esd_iter_next_yield mem it t ss l₂).result := by
  unfold esd_iter_next_yield
  simp only []
  split_ifs <;> rfl

theorem esd_iter_next_pulled_result (mem : Nat → Nat) (x : efi_guid_t)
    (f g : Nat → Nat → Int) (it : esd_iter) (t : efi_guid_t) (l₁ l₂ : List Diag) :
    (esd_iter_next_pulled ⟨mem, f, x⟩ it t l₁).result
      = (esd_iter_next_pulled ⟨mem, g, x⟩ it t l₂).result := by
  unfold esd_iter_next_pulled
  simp only []
  split_ifs <;> first | rfl | exact esd_iter_next_yield_result _ _ _ _ _ _

/-- One `esd_iter_next` call returns the same values and leaves the same
iterator whatever the DER parser answers. -/
theorem esd_iter_next_result_indep (mem : Nat → Nat) (x : efi_guid_t)
    (f g : Nat → Nat → Int) (iter : Option esd_iter) (t : efi_guid_t) :
    (esd_iter_next ⟨mem, f, x⟩ iter t).result
      = (esd_iter_next ⟨mem, g, x⟩ iter t).result := by
  unfold esd_iter_next
  cases iter with
  | none => rfl
  | some it =>
    simp only []
    split_ifs with h1 h2
    · rfl
    · rcases Outcome.result_eq_cases (esl_iter_next_result_indep mem x f g it.iter t
        it.esd it.len) with ⟨v, l₁, l₂, e₁, e₂⟩ | ⟨s, l₁, l₂, e₁, e₂⟩
      · rw [e₁, e₂]
        simp only []
        split_ifs
        · rfl
        · exact esd_iter_next_pulled_result _ _ _ _ _ _ _ _
      · rw [e₁, e₂]; rfl
    · rfl
    · exact esd_iter_next_yield_result _ _ _ _ _ _


/-! ## Construction -/

/-- C9: both constructors fail with return code -1, `errno = EINVAL` and no
iterator for every length below 28 + 16 bytes, whatever `calloc` would do, the
failure of `esd_iter_new` being that of `esl_iter_new`; with `calloc`
succeeding, both return 0 and the fresh iterator for every other length. -/
theorem iter_new_length_floor (c c₁ c₂ : Bool) (buf len : Nat) :
    if len < sizeof_EFI_SIGNATURE_LIST + sizeof_EFI_SIGNATURE_DATA then
      esl_iter_new c buf len = .ret ⟨-1, some EINVAL, none⟩ [] ∧
      esd_iter_new c₁ c₂ buf len = .ret ⟨-1, some EINVAL, none⟩ [] ∧
      (esd_iter_new c₁ c₂ buf len).result
        = (esl_iter_new c buf len).result.map (fun r => ⟨r.rc, r.errno, none⟩)
    else
      esl_iter_new true buf len = .ret ⟨0, none, some (esl_fresh buf len)⟩ [] ∧
      esd_iter_new true true buf len = .ret ⟨0, none, some (esd_fresh buf len)⟩ [] := by
  split_ifs with h
  · simp [esl_iter_new, esd_iter_new, h, Outcome.result, Except.map]
  · simp [esl_iter_new, esd_iter_new, h, esl_fresh, esd_fresh]

/-! ## Accessors -/

/-- C10, as the code has it: on the iterator that `esl_iter_new` returns, before
any `esl_iter_next` call, each of the four accessors returns -1, stores
`EINVAL` to `errno` and stores nothing through its output pointer. -/
theorem accessors_fail_on_fresh_iterator (mem : Nat → Nat) (buf len : Nat)
    (it : esl_iter)
    (hnew : esl_iter_new true buf len = .ret ⟨0, none, some it⟩ []) :
    esl_list_size mem (some it) = ⟨-1, some EINVAL, none⟩ ∧
    esl_header_size mem (some it) = ⟨-1, some EINVAL, none⟩ ∧
    esl_sig_size mem (some it) = ⟨-1, some EINVAL, none⟩ ∧
    esl_get_type mem (some it) = ⟨-1, some EINVAL, none⟩ := by
  have hit : it = ⟨buf, len, 0, 0⟩ := by
    by_cases h : len < sizeof_EFI_SIGNATURE_LIST + sizeof_EFI_SIGNATURE_DATA
    · simp [esl_iter_new, h] at hnew
    · simp [esl_iter_new, h] at hnew
      exact hnew.symm
  subst hit
  simp [esl_list_size, esl_header_size, esl_sig_size, esl_get_type]

/-- Witness for `accessors_fail_on_fresh_iterator`: the iterator over 44 bytes
at address 4096. -/
theorem accessors_fail_on_fresh_iterator_witness :
    esl_iter_new true sample_base 44 = .ret ⟨0, none, some (esl_fresh sample_base 44)⟩ [] ∧
    esl_list_size (load sample_base oversized_buf) (some (esl_fresh sample_base 44))
      = ⟨-1, some EINVAL, none⟩ :=
  ⟨by decide,
   (accessors_fail_on_fresh_iterator (load sample_base oversized_buf) sample_base 44
      (esl_fresh sample_base 44) (by decide)).1⟩

/-- C10 fails as stated: over a 44-byte buffer whose header declares 1000
bytes, the first `esl_iter_next` call returns `-EINVAL` (no call has returned
success), after which all four accessors return 0 and store their value. -/
theorem accessors_succeed_after_failed_next :
    esl_iter_next (sample_env oversized_buf) (some (esl_fresh sample_base 44)) [] 0 0
      = .ret ⟨-EINVAL, some ⟨sample_base, 44, 0, sample_base⟩, [], 0, 0⟩ [] ∧
    esl_list_size (load sample_base oversized_buf) (some ⟨sample_base, 44, 0, sample_base⟩)
      = ⟨0, none, some 1000⟩ ∧
    esl_header_size (load sample_base oversized_buf) (some ⟨sample_base, 44, 0, sample_base⟩)
      = ⟨0, none, some 0⟩ ∧
    esl_sig_size (load sample_base oversized_buf) (some ⟨sample_base, 44, 0, sample_base⟩)
      = ⟨0, none, some 32⟩ ∧
    esl_get_type (load sample_base oversized_buf) (some ⟨sample_base, 44, 0, sample_base⟩)
      = ⟨0, none, some sample_type⟩ := by
  decide

/-! ## Oversized first list -/

/-- C5: over a buffer of at least 44 bytes whose first 28 bytes are not all zero
and whose header declares more bytes than the buffer has, the first
`esl_iter_next` call returns `-EINVAL` and leaves `*type`, `*data` and `*len` as
they were, and the first `esd_iter_next` call returns `-EINVAL` and stores no
owner, payload pointer or payload length. -/
theorem oversized_first_list_is_invalid (env : Env) (buf len : Nat) (t : efi_guid_t)
    (d n : Nat) (hlen : 44 ≤ len) (hnz : header_is_zero env.mem buf = false)
    (hbig : len < SignatureListSize env.mem buf) :
    esl_iter_next env (some (esl_fresh buf len)) t d n
      = .ret ⟨-EINVAL, some ⟨buf, len, 0, buf⟩, t, d, n⟩ [] ∧
    esd_iter_next env (some (esd_fresh buf len)) t
      = .ret ⟨-EINVAL, none,
          some ⟨some ⟨buf, len, 0, buf⟩, 1, 0, 0, 0, 0⟩, t, none, none, none⟩ [] := by
  have hT := SignatureListSize_lt env.mem buf
  have hu : to_u64 (len : Int) = len := to_u64_natCast len (by omega)
  have h1 : ∀ (t : efi_guid_t) (d n : Nat),
      esl_iter_next env (some ⟨buf, len, 0, 0⟩) t d n
        = .ret ⟨-EINVAL, some ⟨buf, len, 0, buf⟩, t, d, n⟩ [] := by
    intro t d n
    have hl : ¬ len ≤ 0 := by omega
    simp [esl_iter_next, esl_iter_next_yield, to_u32_zero, hnz, hu, hbig, hl]
  refine ⟨h1 t d n, ?_⟩
  have hi : (to_u32 (-1) + 1) % WORD32 = 0 := by decide
  have hs : to_s32 1 = 1 := by decide
  simp [esd_iter_next, esd_fresh, hi, hs, h1, EINVAL]

/-- Witness for `oversized_first_list_is_invalid`: the 44-byte buffer whose
header declares 1000 bytes. -/
theorem oversized_first_list_is_invalid_witness :
    esl_iter_next (sample_env oversized_buf) (some (esl_fresh sample_base 44)) [] 0 0
      = .ret ⟨-EINVAL, some ⟨sample_base, 44, 0, sample_base⟩, [], 0, 0⟩ [] ∧
    esd_iter_next (sample_env oversized_buf) (some (esd_fresh sample_base 44)) []
      = .ret ⟨-EINVAL, none,
          some ⟨some ⟨sample_base, 44, 0, sample_base⟩, 1, 0, 0, 0, 0⟩, [], none, none,
          none⟩ [] :=
  oversized_first_list_is_invalid (sample_env oversized_buf) sample_base 44 [] 0 0
    (by decide) (by decide) (by decide)


/-! ## The advisory certificate check -/

/-- The DER parser is consulted: over the certificate-type sample list, the two
parser answers "failure" and "16 bytes" give different diagnostics. -/
theorem x509_check_reads_der_answer :
    (esd_iter_next (env_of sample_base cert_buf (-1) sample_x509)
      (some (esd_fresh sample_base 60)) []).log = [Diag.not_der] ∧
    (esd_iter_next (env_of sample_base cert_buf 16 sample_x509)
      (some (esd_fresh sample_base 60)) []).log = [] ∧
    (esd_iter_next (env_of sample_base cert_buf 17 sample_x509)
      (some (esd_fresh sample_base 60)) []).log = [Diag.asn1_mismatch 17 16] := by
  decide

/-- C8: for any memory (so also for every certificate-type list), any two DER
parsers `f` and `g`, any iterator and any number of earlier calls, the call
`esd_iter_next` ends the same way under both: the same return code, the same
`*type`, owner, payload pointer and payload length, the same iterator after the
call, or the same process exit; only the diagnostics may differ. -/
theorem x509_check_is_advisory (mem : Nat → Nat) (x : efi_guid_t)
    (f g : Nat → Nat → Int) (iter : Option esd_iter) (t : efi_guid_t) (k : Nat) :
    (esd_nth ⟨mem, f, x⟩ iter t k).result = (esd_nth ⟨mem, g, x⟩ iter t k).result := by
  induction k generalizing iter t with
  | zero => exact esd_iter_next_result_indep mem x f g iter t
  | succ k ih =>
    unfold esd_nth
    rcases Outcome.result_eq_cases (esd_iter_next_result_indep mem x f g iter t) with
      ⟨v, l₁, l₂, e₁, e₂⟩ | ⟨s, l₁, l₂, e₁, e₂⟩
    · rw [e₁, e₂]; exact ih v.iter v.type
    · rw [e₁, e₂]; rfl

/-! ## The fatal branch of `esl_iter_next` -/

theorem esl_iter_next_yield_rc (mem : Nat → Nat) (it : esl_iter) (t : efi_guid_t)
    (d n : Nat) (l : List Diag) :
    ∃ r log, esl_iter_next_yield mem it t d n l = .ret r log ∧ esl_rc_ok r.rc = true := by
  unfold esl_iter_next_yield
  split_ifs <;> exact ⟨_, _, rfl, rfl⟩

theorem esl_iter_next_ret_or_exit (env : Env) (iter : Option esl_iter) (t : efi_guid_t)
    (d n : Nat) :
    (∃ r log, esl_iter_next env iter t d n = .ret r log ∧ esl_rc_ok r.rc = true) ∨
    (∃ left element, esl_iter_next env iter t d n
      = .exit 1 [Diag.malformed left element]) := by
  unfold esl_iter_next
  cases iter with
  | none => exact Or.inl ⟨_, _, rfl, rfl⟩
  | some it =>
    simp only []
    split_ifs
    · exact Or.inl ⟨_, _, rfl, rfl⟩
    · exact Or.inl ⟨_, _, rfl, rfl⟩
    · exact Or.inl (esl_iter_next_yield_rc _ _ _ _ _ _)
    · exact Or.inr ⟨_, _, rfl⟩
    · exact Or.inl ⟨_, _, rfl, rfl⟩
    · exact Or.inl (esl_iter_next_yield_rc _ _ _ _ _ _)

theorem esl_iter_next_fresh_returns (env : Env) (buf len : Nat) (t : efi_guid_t)
    (d n : Nat) :
    ∃ r log, esl_iter_next env (some (esl_fresh buf len)) t d n = .ret r log
      ∧ esl_rc_ok r.rc = true := by
  unfold esl_iter_next esl_fresh
  simp only []
  split_ifs
  · exact ⟨_, _, rfl, rfl⟩
  · exact ⟨_, _, rfl, rfl⟩
  · exact esl_iter_next_yield_rc _ _ _ _ _ _

/-- C6, as the code has it: in a run of successive `esl_iter_next` calls on any
iterator, every call either returns 1, 0 or `-EINVAL`, or ends the process
with status 1 through the branch that reports a malformed list; the first call
on the iterator that `esl_iter_new` builds always returns. -/
theorem esl_iter_next_returns_or_exits (env : Env) (iter : Option esl_iter)
    (t : efi_guid_t) (d n k : Nat) (buf len : Nat) :
    ((∃ r log, esl_nth env iter t d n k = .ret r log ∧ esl_rc_ok r.rc = true) ∨
     (∃ left element, esl_nth env iter t d n k = .exit 1 [Diag.malformed left element])) ∧
    (∃ r log, esl_nth env (some (esl_fresh buf len)) t d n 0 = .ret r log
      ∧ esl_rc_ok r.rc = true) := by
  refine ⟨?_, esl_iter_next_fresh_returns env buf len t d n⟩
  induction k generalizing iter t d n with
  | zero => exact esl_iter_next_ret_or_exit env iter t d n
  | succ k ih =>
    unfold esl_nth
    rcases esl_iter_next_ret_or_exit env iter t d n with ⟨r, log, e, _⟩ | ⟨l, e, h⟩
    · rw [e]; exact ih r.iter r.type r.data r.len
    · rw [h]; exact Or.inr ⟨l, e, rfl⟩

/-- C6 fails as stated: over the 61-byte buffer holding one well-formed 60-byte
list and one further byte, which `esl_iter_new` accepts, the first
`esl_iter_next` call returns 1 and the second call ends the process. -/
theorem esl_iter_next_exits_on_trailing_byte :
    esl_iter_new true sample_base 61 = .ret ⟨0, none, some (esl_fresh sample_base 61)⟩ [] ∧
    esl_nth (sample_env trailing_buf) (some (esl_fresh sample_base 61)) [] 0 0 0
      = .ret ⟨1, some ⟨sample_base, 61, 0, sample_base⟩, sample_type, sample_base + 28, 32⟩
          [] ∧
    esl_nth (sample_env trailing_buf) (some (esl_fresh sample_base 61)) [] 0 0 1
      = .exit 1 [Diag.malformed 61 60] := by
  decide

/-! ## Evaluations at failing inputs -/

/-- C1 at a failing input: over the 44-byte buffer whose list declares total
size 44 and per-entry size 8, which `esd_iter_new` accepts, the first
`esd_iter_next` call returns 1 with the payload pointer at the end of the
buffer and the payload length 2^64 - 8, an entry that does not lie inside the
buffer. -/
theorem esd_iter_next_yields_past_buffer_end :
    esd_iter_new true true sample_base 44
      = .ret ⟨0, none, some (esd_fresh sample_base 44)⟩ [] ∧
    esd_iter_next (sample_env short_entry_buf) (some (esd_fresh sample_base 44)) []
      = .ret ⟨1, none,
          some ⟨some ⟨sample_base, 44, 0, sample_base⟩, 1, sample_base + 28, 16, 2, 0⟩,
          sample_type, some (List.range 16), some (sample_base + 44),
          some (2 ^ 64 - 8)⟩ [] ∧
    entry_in_buffer sample_base 44
      ⟨1, none, some ⟨some ⟨sample_base, 44, 0, sample_base⟩, 1, sample_base + 28, 16, 2, 0⟩,
        sample_type, some (List.range 16), some (sample_base + 44), some (2 ^ 64 - 8)⟩
      = false := by
  decide

/-- C3 at a failing input: over the 120-byte buffer that concatenates two
well-formed lists of one entry each, the first `esd_iter_next` call yields the
entry of the first list and the second call ends the process with status 1, so
that no entry of the second list is yielded. -/
theorem esd_iter_next_exits_at_second_list :
    esd_nth (sample_env two_list_buf) (some (esd_fresh sample_base 120)) [] 0
      = .ret ⟨1, none,
          some ⟨some ⟨sample_base, 120, 0, sample_base⟩, 1, sample_base + 28, 32, 1, 0⟩,
          sample_type, some (List.range 16), some (sample_base + 44), some 16⟩ [] ∧
    esd_nth (sample_env two_list_buf) (some (esd_fresh sample_base 120)) [] 1
      = .exit 1 [Diag.malformed 120 60] := by
  decide

/-- C4 at a failing input: over the 93-byte buffer whose list has a 65-byte
entries region and per-entry size 32, the first `esd_iter_next` call returns
`-EINVAL`, and the second call returns 1 and yields the bytes at offset 60 of
that list as an entry. -/
theorem esd_iter_next_yields_after_ragged_list :
    esd_nth (sample_env ragged_buf) (some (esd_fresh sample_base 93)) [] 0
      = .ret ⟨-EINVAL, none,
          some ⟨some ⟨sample_base, 93, 0, sample_base⟩, 1, sample_base + 28, 65, 0, 0⟩,
          sample_type, none, none, none⟩ [] ∧
    esd_nth (sample_env ragged_buf) (some (esd_fresh sample_base 93)) [] 1
      = .ret ⟨1, none,
          some ⟨some ⟨sample_base, 93, 0, sample_base⟩, 2, sample_base + 60, 65, 0, 1⟩,
          sample_type, some ((List.range 16).map (· + 32)), some (sample_base + 76),
          some 16⟩ [] := by
  decide

/-- C7 at a failing input: over the 88-byte buffer holding one well-formed
60-byte list followed by 28 zero bytes, the first `esl_iter_next` call returns
1 and the second call ends the process with status 1 instead of returning 0. -/
theorem esl_iter_next_exits_before_sentinel :
    esl_nth (sample_env sentinel_buf) (some (esl_fresh sample_base 88)) [] 0 0 0
      = .ret ⟨1, some ⟨sample_base, 88, 0, sample_base⟩, sample_type, sample_base + 28, 32⟩
          [] ∧
    esl_nth (sample_env sentinel_buf) (some (esl_fresh sample_base 88)) [] 0 0 1
      = .exit 1 [Diag.malformed 88 60] := by
  decide


/-! ## One well-formed list -/

section single_list

variable (env : Env) (buf L H S N : Nat)

/-- First call over one well-formed list: the list is pulled and its first
entry is yielded. -/
theorem esd_iter_next_first_entry (t : efi_guid_t) (hbuf : buf ≠ 0)
    (hfit : buf + L ≤ 2 ^ 64)
    (hT : SignatureListSize env.mem buf = L) (hH : SignatureHeaderSize env.mem buf = H)
    (hS : SignatureSize env.mem buf = S) (hL : L = 28 + H + N * S) (hS17 : 17 ≤ S) (hN : 1 ≤ N) :
    ∃ log, esd_iter_next env (some (esd_fresh buf L)) t
      = .ret ⟨1, none, some ⟨some ⟨buf, L, 0, buf⟩, 1, buf + (28 + H), L - 28, N, 0⟩,
          SignatureType env.mem buf, some (SignatureOwner env.mem (buf + (28 + H))),
          some (buf + (28 + H) + 16), some (S - 16)⟩ log := by
  have hTlt := SignatureListSize_lt env.mem buf
  rw [hT] at hTlt
  have hSlt := SignatureSize_lt env.mem buf
  rw [hS] at hSlt
  have hNS : S ≤ N * S := Nat.le_mul_of_pos_left S hN
  have hnz : header_is_zero env.mem buf = false := by
    cases hz : header_is_zero env.mem buf with
    | false => rfl
    | true =>
      have := SignatureSize_of_header_is_zero env.mem buf hz
      omega
  have hu : to_u64 (L : Int) = L := to_u64_natCast L (by omega)
  have hd : add64 (add64 buf sizeof_EFI_SIGNATURE_LIST) H = buf + (28 + H) := by
    unfold add64 sizeof_EFI_SIGNATURE_LIST WORD64; omega
  have hn : sub64 L sizeof_EFI_SIGNATURE_LIST = L - 28 := by
    unfold sub64 sizeof_EFI_SIGNATURE_LIST WORD64; omega
  have hl0 : ¬ L ≤ 0 := by omega
  have h1 : esl_iter_next env (some ⟨buf, L, 0, 0⟩) t 0 0
      = .ret ⟨1, some ⟨buf, L, 0, buf⟩, SignatureType env.mem buf, buf + (28 + H), L - 28⟩
          [] := by
    simp [esl_iter_next, esl_iter_next_yield, to_u32_zero, hnz, hu, hT, hH, hd, hn, hl0]
  have hi : (to_u32 (-1) + 1) % WORD32 = 0 := by decide
  have hs : to_s32 1 = 1 := by decide
  have hreg : sub64 (sub64 L 28) H = N * S := by
    unfold sub64 WORD64; omega
  have hSpos : 0 < S := by omega
  have hdiv : N * S / S = N := Nat.mul_div_cancel N hSpos
  have hmod : N * S % S = 0 := Nat.mul_mod_left N S
  have h28 : ¬ L < 28 := by omega
  have hS1 : ¬ S < 1 := by omega
  have hdat : SignatureData (buf + (28 + H)) = buf + (28 + H) + 16 := by
    unfold SignatureData add64 sizeof_efi_guid_t WORD64; omega
  have hlen : sub64 S sizeof_efi_guid_t = S - 16 := by
    unfold sub64 sizeof_efi_guid_t WORD64; omega
  refine ⟨esd_x509_check env ⟨some ⟨buf, L, 0, buf⟩, 1, buf + (28 + H), L - 28, 0, 0⟩
    (SignatureType env.mem buf), ?_⟩
  simp [esd_iter_next, esd_fresh, hi, hs, h1, esd_iter_next_pulled, esl_list_size,
    esl_header_size, esl_sig_size, esd_iter_next_yield, esl_get_type, hbuf, hT, hH, hS,
    sizeof_EFI_SIGNATURE_LIST, hreg, hdiv, hmod, h28, hS1, hdat, hlen]

/-- A later call inside the list: the entry pointer moves on by `S` and the
next entry is yielded. -/
theorem esd_iter_next_next_entry (t : efi_guid_t) (ℓ : Int) (j : Nat) (hbuf : buf ≠ 0)
    (hfit : buf + L ≤ 2 ^ 64)
    (hT : SignatureListSize env.mem buf = L)
    (hS : SignatureSize env.mem buf = S) (hL : L = 28 + H + N * S) (hS17 : 17 ≤ S)
    (hj : j + 1 < N) :
    esd_iter_next env (some ⟨some ⟨buf, L, 0, buf⟩, ℓ, buf + (28 + H + j * S), L - 28, N, j⟩) t
      = .ret ⟨1, none,
          some ⟨some ⟨buf, L, 0, buf⟩, to_s32 (ℓ + 1), buf + (28 + H + (j + 1) * S), L - 28,
            N, j + 1⟩,
          SignatureType env.mem buf,
          some (SignatureOwner env.mem (buf + (28 + H + (j + 1) * S))),
          some (buf + (28 + H + (j + 1) * S) + 16), some (S - 16)⟩ [] := by
  have hTlt := SignatureListSize_lt env.mem buf
  rw [hT] at hTlt
  have hSlt := SignatureSize_lt env.mem buf
  rw [hS] at hSlt
  have hjS : (j + 1) * S + S ≤ N * S := by
    have := Nat.mul_le_mul_right S (show j + 1 + 1 ≤ N by omega)
    rwa [Nat.add_mul (j + 1) 1 S, Nat.one_mul] at this
  have hj1 : (j + 1) * S = j * S + S := by rw [Nat.add_mul, Nat.one_mul]
  have hNle : N ≤ N * S := Nat.le_mul_of_pos_right N (by omega)
  have hi : (j + 1) % WORD32 = j + 1 := by unfold WORD32; omega
  have hne : ¬ j + 1 = N := by omega
  have hS1 : ¬ S < 1 := by omega
  have hadd : add64 (buf + (28 + H + j * S)) S = buf + (28 + H + (j + 1) * S) := by
    unfold add64 WORD64; omega
  have hdat : SignatureData (buf + (28 + H + (j + 1) * S))
      = buf + (28 + H + (j + 1) * S) + 16 := by
    unfold SignatureData add64 sizeof_efi_guid_t WORD64; omega
  have hlen : sub64 S sizeof_efi_guid_t = S - 16 := by
    unfold sub64 sizeof_efi_guid_t WORD64; omega
  simp [esd_iter_next, hi, hne, esl_sig_size, esd_iter_next_yield, esl_get_type, hbuf, hS,
    hS1, hadd, hdat, hlen]

/-- The call after the last entry: the list iterator is asked for a further
list, finds the buffer used up and reports the end of the sequence. -/
theorem esd_iter_next_after_last (t : efi_guid_t) (ℓ : Int) (e n j : Nat) (hbuf : buf ≠ 0)
    (hT : SignatureListSize env.mem buf = L) (hL0 : 0 < L) (hN32 : N < 2 ^ 32)
    (hj : j + 1 = N) :
    ∃ log, esd_iter_next env (some ⟨some ⟨buf, L, 0, buf⟩, ℓ, e, n, N, j⟩) t
      = .ret ⟨0, none, some ⟨some ⟨buf, L, (L : Int), buf⟩, to_s32 (ℓ + 1), e, n, N, 0⟩, t,
          none, none, none⟩ log := by
  have hTlt := SignatureListSize_lt env.mem buf
  rw [hT] at hTlt
  have hu : to_u64 (L : Int) = L := to_u64_natCast L (by omega)
  have hoff : to_s64 (L : Int) = (L : Int) := by
    unfold to_s64 WORD64; simp only []; split <;> omega
  have h32 : to_u32 (L : Int) = L := by unfold to_u32 WORD32; omega
  have hi : (j + 1) % WORD32 = N := by unfold WORD32; omega
  have hl0 : ¬ L ≤ 0 := by omega
  refine ⟨esl_x509_check env ⟨buf, L, 0, buf⟩ (SignatureType env.mem buf) e n, ?_⟩
  simp [esd_iter_next, hi, esl_iter_next, esl_get_type, hbuf, to_u32_zero, hl0, hu, hT,
    hoff, h32]

/-- A call that returns hands its iterator and `*type` to the next call. -/
theorem esd_nth_succ_of_ret (t : efi_guid_t) (iter : Option esd_iter) (k : Nat)
    (r : esd_next_ret) (log : List Diag) (h : esd_iter_next env iter t = .ret r log) :
    esd_nth env iter t (k + 1) = esd_nth env r.iter r.type k := by
  rw [esd_nth, h]

/-- From the state reached after entry `j`, call number `k + 1` yields entry
`j + k + 1`, as long as that entry exists. -/
theorem esd_nth_inside_list (hbuf : buf ≠ 0) (hfit : buf + L ≤ 2 ^ 64)
    (hT : SignatureListSize env.mem buf = L)
    (hS : SignatureSize env.mem buf = S) (hL : L = 28 + H + N * S) (hS17 : 17 ≤ S)
    (k : Nat) : ∀ (j : Nat) (ℓ : Int) (t : efi_guid_t), j + k + 1 < N →
    ∃ r log,
      esd_nth env (some ⟨some ⟨buf, L, 0, buf⟩, ℓ, buf + (28 + H + j * S), L - 28, N, j⟩) t k
        = .ret r log ∧ r.rc = 1 ∧ r.type = SignatureType env.mem buf ∧
      r.owner = some (SignatureOwner env.mem (buf + (28 + H + (j + k + 1) * S))) ∧
      r.data = some (buf + (28 + H + (j + k + 1) * S) + 16) ∧ r.len = some (S - 16) := by
  induction k with
  | zero =>
    intro j ℓ t hj
    exact ⟨_, _, esd_iter_next_next_entry env buf L H S N t ℓ j hbuf hfit hT hS hL hS17 hj,
      rfl, rfl, rfl, rfl, rfl⟩
  | succ k ih =>
    intro j ℓ t hj
    rw [esd_nth_succ_of_ret env t _ k _ _
      (esd_iter_next_next_entry env buf L H S N t ℓ j hbuf hfit hT hS hL hS17 (by omega))]
    have hidx : j + 1 + k + 1 = j + (k + 1) + 1 := by omega
    have := ih (j + 1) (to_s32 (ℓ + 1)) (SignatureType env.mem buf) (by omega)
    rw [hidx] at this
    exact this

/-- From the state reached after entry `j`, the call that follows the last
entry returns 0 and stores no entry. -/
theorem esd_nth_end_of_list (hbuf : buf ≠ 0) (hfit : buf + L ≤ 2 ^ 64)
    (hT : SignatureListSize env.mem buf = L)
    (hS : SignatureSize env.mem buf = S) (hL : L = 28 + H + N * S) (hS17 : 17 ≤ S)
    (k : Nat) : ∀ (j : Nat) (ℓ : Int) (t : efi_guid_t), j + k + 1 = N →
    ∃ r log,
      esd_nth env (some ⟨some ⟨buf, L, 0, buf⟩, ℓ, buf + (28 + H + j * S), L - 28, N, j⟩) t k
        = .ret r log ∧ r.rc = 0 ∧ r.owner = none ∧ r.data = none ∧ r.len = none := by
  have hTlt := SignatureListSize_lt env.mem buf
  rw [hT] at hTlt
  induction k with
  | zero =>
    intro j ℓ t hj
    have hNle : N ≤ N * S := Nat.le_mul_of_pos_right N (by omega)
    obtain ⟨log, h⟩ := esd_iter_next_after_last env buf L N t ℓ (buf + (28 + H + j * S))
      (L - 28) j hbuf hT (by omega) (by omega) hj
    exact ⟨_, log, h, rfl, rfl, rfl, rfl⟩
  | succ k ih =>
    intro j ℓ t hj
    rw [esd_nth_succ_of_ret env t _ k _ _
      (esd_iter_next_next_entry env buf L H S N t ℓ j hbuf hfit hT hS hL hS17 (by omega))]
    exact ih (j + 1) (to_s32 (ℓ + 1)) (SignatureType env.mem buf) (by omega)

end single_list

/-- C2: over a buffer that is exactly one well-formed list (total size
`L = 28 + H + N * S` equal to the buffer length, `S ≥ 17`, `N ≥ 1`, any type),
the buffer being a C object (not at `NULL`, inside the 64-bit address space),
each of the first `N` calls to `esd_iter_next` on the fresh iterator returns 1;
call `k + 1` stores the list's type, the owner read from the 16 bytes at offset
`28 + H + k * S`, the payload pointer 16 bytes further and the payload length
`S - 16`; call `N + 1` returns 0 and stores no entry. -/
theorem single_list_yields_each_entry_then_end (env : Env) (buf L H S N : Nat)
    (t : efi_guid_t) (it : esd_iter) (hbuf : buf ≠ 0) (hfit : buf + L ≤ 2 ^ 64)
    (hnew : esd_iter_new true true buf L = .ret ⟨0, none, some it⟩ [])
    (hT : SignatureListSize env.mem buf = L) (hH : SignatureHeaderSize env.mem buf = H)
    (hS : SignatureSize env.mem buf = S) (hL : L = 28 + H + N * S) (hS17 : 17 ≤ S)
    (hN : 1 ≤ N) :
    (∀ k, k < N → ∃ r log, esd_nth env (some it) t k = .ret r log ∧ r.rc = 1 ∧
      r.type = SignatureType env.mem buf ∧
      r.owner = some (read_guid env.mem (buf + (28 + H + k * S))) ∧
      r.data = some (buf + (28 + H + k * S) + 16) ∧ r.len = some (S - 16)) ∧
    (∃ r log, esd_nth env (some it) t N = .ret r log ∧ r.rc = 0 ∧
      r.owner = none ∧ r.data = none ∧ r.len = none) := by
  have hNS : S ≤ N * S := Nat.le_mul_of_pos_left S hN
  have hit : it = esd_fresh buf L := by
    have h44 : ¬ L < sizeof_EFI_SIGNATURE_LIST + sizeof_EFI_SIGNATURE_DATA := by
      unfold sizeof_EFI_SIGNATURE_LIST sizeof_EFI_SIGNATURE_DATA; omega
    simp [esd_iter_new, esl_iter_new, h44] at hnew
    rw [← hnew]; rfl
  subst hit
  obtain ⟨log₀, h₀⟩ := esd_iter_next_first_entry env buf L H S N t hbuf hfit hT hH hS hL
    hS17 hN
  have hst : buf + (28 + H) = buf + (28 + H + 0 * S) := by omega
  constructor
  · intro k hk
    cases k with
    | zero =>
      refine ⟨_, log₀, h₀, rfl, rfl, ?_, ?_, rfl⟩
      · simp [SignatureOwner]
      · simp
    | succ k =>
      rw [esd_nth_succ_of_ret env t _ k _ _ h₀]
      simp only []
      rw [hst]
      have := esd_nth_inside_list env buf L H S N hbuf hfit hT hS hL hS17 k 0 1
        (SignatureType env.mem buf) (by omega)
      rw [show 0 + k + 1 = k + 1 by omega] at this
      exact this
  · obtain ⟨M, rfl⟩ : ∃ M, N = M + 1 := ⟨N - 1, by omega⟩
    rw [esd_nth_succ_of_ret env t _ M _ _ h₀]
    simp only []
    rw [hst]
    exact esd_nth_end_of_list env buf L H S (M + 1) hbuf hfit hT hS hL hS17 M 0 1
      (SignatureType env.mem buf) (by omega)

/-- Witness for `single_list_yields_each_entry_then_end`: the 92-byte list of
the specification's example, two entries of 32 bytes. -/
theorem single_list_yields_each_entry_then_end_witness :
    (∃ r log, esd_nth (sample_env two_entry_buf) (some (esd_fresh sample_base 92)) [] 1
        = .ret r log ∧ r.rc = 1 ∧
      r.type = SignatureType (sample_env two_entry_buf).mem sample_base ∧
      r.owner = some (read_guid (sample_env two_entry_buf).mem (sample_base + (28 + 0 + 1 * 32))) ∧
      r.data = some (sample_base + (28 + 0 + 1 * 32) + 16) ∧ r.len = some (32 - 16)) ∧
    (∃ r log, esd_nth (sample_env two_entry_buf) (some (esd_fresh sample_base 92)) [] 2
        = .ret r log ∧ r.rc = 0 ∧ r.owner = none ∧ r.data = none ∧ r.len = none) :=
  have h := single_list_yields_each_entry_then_end (sample_env two_entry_buf) sample_base
    92 0 32 2 [] (esd_fresh sample_base 92) (by decide) (by norm_num [sample_base])
    (by decide) (by decide)
    (by decide) (by decide) (by decide) (by decide) (by decide)
  ⟨h.1 1 (by decide), h.2⟩


/-! ## The second call over a buffer longer than its first list -/

/-- Whenever the first list is yielded and the buffer is longer than that list,
the second `esl_iter_next` call takes the fatal branch: the test of line 223
compares the bytes left with the list size the wrong way round for a list that
is followed by further data. -/
theorem esl_second_call_exits_when_bytes_follow (env : Env) (buf len : Nat)
    (t : efi_guid_t) (d n : Nat) (hbuf : buf ≠ 0) (hlen : len < 2 ^ 64)
    (hnz : header_is_zero env.mem buf = false)
    (hT : SignatureListSize env.mem buf < len) :
    (∃ r, esl_nth env (some (esl_fresh buf len)) t d n 0 = .ret r [] ∧ r.rc = 1) ∧
    esl_nth env (some (esl_fresh buf len)) t d n 1
      = .exit 1 [Diag.malformed len (SignatureListSize env.mem buf)] := by
  have hu : to_u64 (len : Int) = len := to_u64_natCast len hlen
  have hl0 : ¬ len ≤ 0 := by omega
  have hle : ¬ len < SignatureListSize env.mem buf := by omega
  have h1 : esl_iter_next env (some ⟨buf, len, 0, 0⟩) t d n
      = .ret ⟨1, some ⟨buf, len, 0, buf⟩, SignatureType env.mem buf,
          add64 (add64 buf sizeof_EFI_SIGNATURE_LIST) (SignatureHeaderSize env.mem buf),
          sub64 (SignatureListSize env.mem buf) sizeof_EFI_SIGNATURE_LIST⟩ [] := by
    simp [esl_iter_next, esl_iter_next_yield, to_u32_zero, hnz, hu, hl0, hle]
  refine ⟨⟨_, h1, rfl⟩, ?_⟩
  have h2 : esl_nth env (some (esl_fresh buf len)) t d n 1
      = esl_iter_next env (some ⟨buf, len, 0, buf⟩) (SignatureType env.mem buf)
          (add64 (add64 buf sizeof_EFI_SIGNATURE_LIST) (SignatureHeaderSize env.mem buf))
          (sub64 (SignatureListSize env.mem buf) sizeof_EFI_SIGNATURE_LIST) := by
    rw [esl_nth]
    unfold esl_fresh
    rw [h1]
    rfl
  rw [h2]
  simp [esl_iter_next, to_u32_zero, hl0, hbuf, hu, hT]

/-! ## What a call leaves in the iterators -/

theorem to_s32_of_range (x : Int) (h0 : 0 ≤ x) (h1 : x < 2 ^ 31) : to_s32 x = x := by
  unfold to_s32 WORD32
  simp only []
  split <;> omega

theorem to_s64_of_range (x : Int) (h0 : 0 ≤ x) (h1 : x < 2 ^ 63) : to_s64 x = x := by
  unfold to_s64 WORD64
  simp only []
  split <;> omega

/-- The tail of `esl_iter_next` always returns, with the iterator it was given. -/
theorem esl_iter_next_yield_iter (mem : Nat → Nat) (it : esl_iter) (t : efi_guid_t)
    (d n : Nat) (l : List Diag) :
    ∃ r, esl_iter_next_yield mem it t d n l = .ret r l ∧ r.iter = some it := by
  unfold esl_iter_next_yield
  split_ifs <;> exact ⟨_, rfl, rfl⟩

/-- A call of `esl_iter_next` that returns 1 stores the type of the list the
iterator now points to, the address after that list's fixed header and header
blob, and the list's total size minus 28. -/
theorem esl_iter_next_success_values (env : Env) (it : esl_iter) (t : efi_guid_t)
    (d n : Nat) (r : esl_next_ret) (log : List Diag)
    (h : esl_iter_next env (some it) t d n = .ret r log) (hrc : r.rc = 1) :
    ∃ e, r.iter = some e ∧ r.type = SignatureType env.mem e.esl ∧
      r.data = add64 (add64 e.esl sizeof_EFI_SIGNATURE_LIST)
        (SignatureHeaderSize env.mem e.esl) ∧
      r.len = sub64 (SignatureListSize env.mem e.esl) sizeof_EFI_SIGNATURE_LIST := by
  have key : ∀ (e : esl_iter) (l : List Diag),
      esl_iter_next_yield env.mem e t d n l = .ret r log →
      ∃ e, r.iter = some e ∧ r.type = SignatureType env.mem e.esl ∧
        r.data = add64 (add64 e.esl sizeof_EFI_SIGNATURE_LIST)
          (SignatureHeaderSize env.mem e.esl) ∧
        r.len = sub64 (SignatureListSize env.mem e.esl) sizeof_EFI_SIGNATURE_LIST := by
    intro e l hy
    unfold esl_iter_next_yield at hy
    split_ifs at hy
    · injection hy with hv _; subst hv; simp at hrc
    · injection hy with hv _; subst hv; simp [EINVAL] at hrc
    · injection hy with hv _; subst hv; exact ⟨e, rfl, rfl, rfl, rfl⟩
  unfold esl_iter_next at h
  simp only [] at h
  split_ifs at h
  · injection h with hv _; subst hv; simp [EINVAL] at hrc
  · injection h with hv _; subst hv; simp [EINVAL] at hrc
  · exact key _ _ h
  · injection h with hv _; subst hv; simp at hrc
  · exact key _ _ h

/-- The stores of lines 147 to 153 always return, with the iterator given. -/
theorem esd_iter_next_yield_iter (mem : Nat → Nat) (x : esd_iter) (t : efi_guid_t)
    (ss : Nat) (l : List Diag) :
    ∃ r, esd_iter_next_yield mem x t ss l = .ret r l ∧ r.iter = some x := by
  unfold esd_iter_next_yield
  simp only []
  split_ifs <;> exact ⟨_, rfl, rfl⟩

/-- Lines 102 to 153 always return and change at most the entry count. -/
theorem esd_iter_next_pulled_iter (env : Env) (x : esd_iter) (t : efi_guid_t)
    (l : List Diag) :
    ∃ r l' x', esd_iter_next_pulled env x t l = .ret r l' ∧ r.iter = some x' ∧
      x'.i = x.i ∧ x'.line = x.line ∧ x'.iter = x.iter := by
  unfold esd_iter_next_pulled
  simp only []
  split_ifs
  · exact ⟨_, _, _, rfl, rfl, rfl, rfl, rfl⟩
  · exact ⟨_, _, _, rfl, rfl, rfl, rfl, rfl⟩
  · exact ⟨_, _, _, rfl, rfl, rfl, rfl, rfl⟩
  · exact ⟨_, _, _, rfl, rfl, rfl, rfl, rfl⟩
  · obtain ⟨r, h, hr⟩ := esd_iter_next_yield_iter env.mem
      { x with nmemb := sub64 (sub64 ((esl_list_size env.mem x.iter).out.getD 0)
          sizeof_EFI_SIGNATURE_LIST) ((esl_header_size env.mem x.iter).out.getD 0)
          / ((esl_sig_size env.mem x.iter).out.getD 0) } t
      ((esl_sig_size env.mem x.iter).out.getD 0) (l ++ esd_x509_check env x t)
    exact ⟨r, _, _, h, hr, rfl, rfl, rfl⟩

/-- One `esl_iter_next` call on an existing iterator ends the process through
the fatal branch, or returns with the offset unchanged or advanced by the
total size of the list the iterator pointed to before the call. -/
theorem esl_iter_next_offset_step (env : Env) (it : esl_iter) (t : efi_guid_t)
    (d n : Nat) :
    (∃ r log e, esl_iter_next env (some it) t d n = .ret r log ∧ r.iter = some e ∧
      (e.offset = it.offset ∨
        (0 ≤ it.offset ∧
          to_u64 ((it.len : Int) - it.offset) ≤ SignatureListSize env.mem it.esl ∧
          e.offset = to_s64 (it.offset + SignatureListSize env.mem it.esl)))) ∨
    (∃ left, esl_iter_next env (some it) t d n
      = .exit 1 [Diag.malformed left (SignatureListSize env.mem it.esl)]) := by
  unfold esl_iter_next
  simp only []
  split_ifs with h0 h1 h2 h3 h4
  · exact Or.inl ⟨_, _, _, rfl, rfl, Or.inl rfl⟩
  · exact Or.inl ⟨_, _, _, rfl, rfl, Or.inl rfl⟩
  · obtain ⟨r, h, hr⟩ := esl_iter_next_yield_iter env.mem { it with esl := it.buf } t d n []
    exact Or.inl ⟨r, _, _, h, hr, Or.inl rfl⟩
  · exact Or.inr ⟨_, rfl⟩
  · exact Or.inl ⟨_, _, _, rfl, rfl, Or.inr ⟨by omega, by omega, rfl⟩⟩
  · obtain ⟨r, h, hr⟩ := esl_iter_next_yield_iter env.mem
      { it with offset := to_s64 (it.offset + SignatureListSize env.mem it.esl),
                esl := to_u64 ((it.buf : Int)
                  + to_s64 (it.offset + SignatureListSize env.mem it.esl)) } t d n
      (esl_x509_check env it ((esl_get_type env.mem (some it)).out.getD []) d n)
    exact Or.inl ⟨r, _, _, h, hr, Or.inr ⟨by omega, by omega, rfl⟩⟩

/-- One `esd_iter_next` call on an iterator with a list iterator ends the
process, or returns an iterator whose call counter went up by one, whose list
iterator still exists, and whose entry index is 0 if the call pulled a list. -/
theorem esd_iter_next_step (env : Env) (x : esd_iter) (t : efi_guid_t)
    (hx : x.iter ≠ none) :
    (∃ r log x', esd_iter_next env (some x) t = .ret r log ∧ r.iter = some x' ∧
      x'.line = to_s32 (x.line + 1) ∧ x'.iter ≠ none ∧
      ((x.i + 1) % WORD32 = x.nmemb → x'.i = 0)) ∨
    (∃ s log, esd_iter_next env (some x) t = .exit s log) := by
  obtain ⟨e, he⟩ : ∃ e, x.iter = some e := by
    cases hxi : x.iter with
    | none => exact absurd hxi hx
    | some e => exact ⟨e, rfl⟩
  unfold esd_iter_next
  simp only [hx, if_false]
  split_ifs with hp hs
  · rw [he]
    rcases esl_iter_next_offset_step env e t x.esd x.len with
      ⟨r, log, e', h, hr, _⟩ | ⟨left, h⟩
    · rw [h]
      simp only []
      split_ifs
      · exact Or.inl ⟨_, _, _, rfl, rfl, rfl, by simp [hr], fun _ => rfl⟩
      · obtain ⟨r', l', x', h', hr', hi, hl, hit⟩ := esd_iter_next_pulled_iter env
          { x with line := to_s32 (x.line + 1), i := 0, iter := r.iter, esd := r.data,
                   len := r.len } r.type log
        exact Or.inl ⟨r', l', x', h', hr', hl, by rw [hit]; simp [hr], fun _ => hi⟩
    · rw [h]
      exact Or.inr ⟨_, _, rfl⟩
  · exact Or.inl ⟨_, _, _, rfl, rfl, rfl, hx, fun h => absurd h hp⟩
  · obtain ⟨r, h, hr⟩ := esd_iter_next_yield_iter env.mem
      { x with line := to_s32 (x.line + 1), i := (x.i + 1) % WORD32,
               esd := add64 x.esd ((esl_sig_size env.mem x.iter).out.getD 0) } t
      ((esl_sig_size env.mem x.iter).out.getD 0) []
    exact Or.inl ⟨r, _, _, h, hr, rfl, hx, fun h => absurd h hp⟩

/-! ## The call counter -/

/-- After `n + 1` calls from an iterator whose counter is `x.line`, the counter
is `x.line + (n + 1)`, unless a call ended the process. -/
theorem esd_nth_line (env : Env) (n : Nat) : ∀ (x : esd_iter) (t : efi_guid_t),
    x.iter ≠ none → 0 ≤ x.line → x.line + ((n : Int) + 1) < 2 ^ 31 →
    (∃ r log x', esd_nth env (some x) t n = .ret r log ∧ r.iter = some x' ∧
      x'.line = x.line + ((n : Int) + 1)) ∨
    (∃ s log, esd_nth env (some x) t n = .exit s log) := by
  induction n with
  | zero =>
    intro x t hx h0 h1
    rcases esd_iter_next_step env x t hx with ⟨r, log, x', h, hr, hl, _, _⟩ | ⟨s, log, h⟩
    · refine Or.inl ⟨r, log, x', h, hr, ?_⟩
      rw [hl, to_s32_of_range _ (by omega) (by omega)]
      simp
    · exact Or.inr ⟨s, log, h⟩
  | succ n ih =>
    intro x t hx h0 h1
    rcases esd_iter_next_step env x t hx with ⟨r, log, x', h, hr, hl, hi, _⟩ | ⟨s, log, h⟩
    · rw [esd_nth_succ_of_ret env t (some x) n r log h, hr]
      have hl' : x'.line = x.line + 1 := by
        rw [hl, to_s32_of_range _ (by omega) (by omega)]
      rcases ih x' r.type hi (by omega) (by push_cast at h1 ⊢; omega) with
        ⟨r', log', x'', h', hr', hl''⟩ | ⟨s, log', h'⟩
      · refine Or.inl ⟨r', log', x'', h', hr', ?_⟩
        rw [hl'', hl']
        push_cast
        omega
      · exact Or.inr ⟨s, log', h'⟩
    · refine Or.inr ⟨s, log, ?_⟩
      rw [esd_nth, h]

/-- C11: on the iterator that `esd_iter_new` builds, `esd_iter_get_line`
returns 0; and for an iterator with a list iterator whose counter reads `c ≥ 0`,
after `n + 1` further calls to `esd_iter_next`, whatever each call returned,
`esd_iter_get_line` returns `c + (n + 1)` as long as that is within `int`
range, unless a call ended the process (then no iterator is left). -/
theorem esd_iter_get_line_counts_calls (env : Env) (buf len : Nat) (x : esd_iter)
    (t : efi_guid_t) (n : Nat) (hx : x.iter ≠ none) (h0 : 0 ≤ x.line)
    (h1 : x.line + ((n : Int) + 1) < 2 ^ 31) :
    esd_iter_get_line (some (esd_fresh buf len)) = (0, none) ∧
    ((∃ r log, esd_nth env (some x) t n = .ret r log ∧
        esd_iter_get_line r.iter = (x.line + ((n : Int) + 1), none)) ∨
     (∃ s log, esd_nth env (some x) t n = .exit s log)) := by
  refine ⟨rfl, ?_⟩
  rcases esd_nth_line env n x t hx h0 h1 with ⟨r, log, x', h, hr, hl⟩ | ⟨s, log, h⟩
  · refine Or.inl ⟨r, log, h, ?_⟩
    rw [hr]
    simp [esd_iter_get_line, hl]
  · exact Or.inr ⟨s, log, h⟩

/-- Witness for `esd_iter_get_line_counts_calls`: three calls on the fresh
iterator over the 92-byte list of two entries; the third call returns 0 and
the counter reads 3. -/
theorem esd_iter_get_line_counts_calls_witness :
    esd_iter_get_line (some (esd_fresh sample_base 92)) = (0, none) ∧
    ((∃ r log, esd_nth (sample_env two_entry_buf) (some (esd_fresh sample_base 92)) [] 2
          = .ret r log ∧
        esd_iter_get_line r.iter = ((esd_fresh sample_base 92).line + (((2 : Nat) : Int) + 1),
          none)) ∨
     (∃ s log, esd_nth (sample_env two_entry_buf) (some (esd_fresh sample_base 92)) [] 2
          = .exit s log)) :=
  esd_iter_get_line_counts_calls (sample_env two_entry_buf) sample_base 92
    (esd_fresh sample_base 92) [] 2 (by decide) (by decide) (by decide)

/-! ## Propagation of the list iterator's result -/

/-- C12: when `esd_iter_next` pulls a list (the incremented index equals the
entry count) and `esl_iter_next` returns a code below 1, that is 0 or a
negative error, `esd_iter_next` returns that same code, with the diagnostics
of the inner call, and stores no owner, payload pointer or payload length. -/
theorem esd_iter_next_propagates_pull_result (env : Env) (x : esd_iter) (t : efi_guid_t)
    (r : esl_next_ret) (log : List Diag) (hx : x.iter ≠ none)
    (hpull : (x.i + 1) % WORD32 = x.nmemb)
    (hesl : esl_iter_next env x.iter t x.esd x.len = .ret r log) (hrc : r.rc < 1) :
    esd_iter_next env (some x) t
      = .ret ⟨r.rc, none,
          some ⟨r.iter, to_s32 (x.line + 1), r.data, r.len, x.nmemb, 0⟩, r.type,
          none, none, none⟩ log := by
  unfold esd_iter_next
  simp [hx, hpull, hesl, hrc]

/-- Witness for `esd_iter_next_propagates_pull_result`: the first call over the
44-byte buffer whose header declares 1000 bytes, where `esl_iter_next` returns
`-EINVAL`. -/
theorem esd_iter_next_propagates_pull_result_witness :
    esd_iter_next (sample_env oversized_buf) (some (esd_fresh sample_base 44)) []
      = .ret ⟨(⟨-EINVAL, some ⟨sample_base, 44, 0, sample_base⟩, [], 0, 0⟩ : esl_next_ret).rc,
          none,
          some ⟨some ⟨sample_base, 44, 0, sample_base⟩,
            to_s32 ((esd_fresh sample_base 44).line + 1), 0, 0,
            (esd_fresh sample_base 44).nmemb, 0⟩, [], none, none, none⟩ [] :=
  esd_iter_next_propagates_pull_result (sample_env oversized_buf)
    (esd_fresh sample_base 44) []
    ⟨-EINVAL, some ⟨sample_base, 44, 0, sample_base⟩, [], 0, 0⟩ [] (by decide) (by decide)
    (by decide) (by decide)

/-! ## The cursor and the entry index -/

/-- C15: for every list iterator over a buffer of fewer than `2 ^ 63 - 2 ^ 32`
bytes and every offset an `off_t` can hold, a call to `esl_iter_next` that
returns leaves an offset that is at least the offset before the call, and is
either that offset or that offset plus the total size declared by the list the
iterator pointed to; the other outcome is the fatal branch.  And for every
entry iterator, a call to `esd_iter_next` that pulls a list and returns leaves
the entry index 0. -/
theorem cursor_is_monotone_and_index_resets (env : Env) (it : esl_iter) (x : esd_iter)
    (t : efi_guid_t) (d n : Nat) (hoff : it.offset < 2 ^ 63)
    (hlen : (it.len : Int) + 2 ^ 32 ≤ 2 ^ 63)
    (hx : x.iter ≠ none) (hpull : (x.i + 1) % WORD32 = x.nmemb) :
    ((∃ r log e, esl_iter_next env (some it) t d n = .ret r log ∧ r.iter = some e ∧
        it.offset ≤ e.offset ∧
        (e.offset = it.offset ∨
          e.offset = it.offset + SignatureListSize env.mem it.esl)) ∨
     (∃ left, esl_iter_next env (some it) t d n
        = .exit 1 [Diag.malformed left (SignatureListSize env.mem it.esl)])) ∧
    ((∃ r log x', esd_iter_next env (some x) t = .ret r log ∧ r.iter = some x' ∧
        x'.i = 0) ∨
     (∃ s log, esd_iter_next env (some x) t = .exit s log)) := by
  have hT := SignatureListSize_lt env.mem it.esl
  constructor
  · rcases esl_iter_next_offset_step env it t d n with
      ⟨r, log, e, h, hr, ho⟩ | ⟨left, h⟩
    · refine Or.inl ⟨r, log, e, h, hr, ?_⟩
      rcases ho with ho | ⟨h0, hle, ho⟩
      · exact ⟨by omega, Or.inl ho⟩
      · have hsum : it.offset + (SignatureListSize env.mem it.esl : Int) < 2 ^ 63 := by
          unfold to_u64 WORD64 at hle
          omega
        rw [to_s64_of_range _ (by omega) hsum] at ho
        exact ⟨by omega, Or.inr ho⟩
    · exact Or.inr ⟨left, h⟩
  · rcases esd_iter_next_step env x t hx with ⟨r, log, x', h, hr, _, _, hi⟩ | ⟨s, log, h⟩
    · exact Or.inl ⟨r, log, x', h, hr, hi hpull⟩
    · exact Or.inr ⟨s, log, h⟩

/-- Witness for `cursor_is_monotone_and_index_resets`: the second call of the
list iterator over the 92-byte list of two entries, which advances the offset
from 0 to 92, and the first call of the entry iterator over it. -/
theorem cursor_is_monotone_and_index_resets_witness :
    ((∃ r log e, esl_iter_next (sample_env two_entry_buf)
          (some ⟨sample_base, 92, 0, sample_base⟩) [] 0 0 = .ret r log ∧ r.iter = some e ∧
        (0 : Int) ≤ e.offset ∧
        (e.offset = 0 ∨
          e.offset = 0 + SignatureListSize (sample_env two_entry_buf).mem sample_base)) ∨
     (∃ left, esl_iter_next (sample_env two_entry_buf)
          (some ⟨sample_base, 92, 0, sample_base⟩) [] 0 0
        = .exit 1 [Diag.malformed left
            (SignatureListSize (sample_env two_entry_buf).mem sample_base)])) ∧
    ((∃ r log x', esd_iter_next (sample_env two_entry_buf)
          (some (esd_fresh sample_base 92)) [] = .ret r log ∧ r.iter = some x' ∧
        x'.i = 0) ∨
     (∃ s log, esd_iter_next (sample_env two_entry_buf)
          (some (esd_fresh sample_base 92)) [] = .exit s log)) :=
  cursor_is_monotone_and_index_resets (sample_env two_entry_buf)
    ⟨sample_base, 92, 0, sample_base⟩ (esd_fresh sample_base 92) [] 0 0
    (by norm_num) (by norm_num) (by decide) (by decide)

/-- The second call of the list iterator over the 92-byte list does advance
the offset, from 0 to the list's total size 92. -/
theorem esl_iter_next_advances_offset :
    esl_iter_next (sample_env two_entry_buf) (some ⟨sample_base, 92, 0, sample_base⟩) [] 0 0
      = .ret ⟨0, some ⟨sample_base, 92, 92, sample_base⟩, [], 0, 0⟩ [] := by
  decide

/-! ## A per-entry size of zero -/

/-- C17: let the list the iterator points to after the pull, or while entries
are stepped through, have the per-entry size field 0.  A call that pulled that
list returns -1 with `errno = EINVAL`, the failure of `esl_sig_size`, with the
entry count left as it was (neither the divisibility test nor the division
was reached) and no owner, payload pointer or payload length stored; a call
that steps inside that list returns the same error.  So no entry of such a
list is yielded. -/
theorem zero_sig_size_is_rejected_before_division (env : Env) (x : esd_iter)
    (t : efi_guid_t) (e : esl_iter) (hS : SignatureSize env.mem e.esl = 0) :
    (∀ (r : esl_next_ret) (log : List Diag), x.iter ≠ none →
      (x.i + 1) % WORD32 = x.nmemb →
      esl_iter_next env x.iter t x.esd x.len = .ret r log → 1 ≤ r.rc → r.iter = some e →
      ∃ log', esd_iter_next env (some x) t
        = .ret ⟨-1, some EINVAL,
            some ⟨some e, to_s32 (x.line + 1), r.data, r.len, x.nmemb, 0⟩, r.type,
            none, none, none⟩ log') ∧
    (x.iter = some e → (x.i + 1) % WORD32 ≠ x.nmemb →
      esd_iter_next env (some x) t
        = .ret ⟨-1, some EINVAL,
            some ⟨some e, to_s32 (x.line + 1), x.esd, x.len, x.nmemb, (x.i + 1) % WORD32⟩,
            t, none, none, none⟩ []) := by
  constructor
  · intro r log hx hpull hesl hrc hr
    have hrc' : ¬ r.rc < 1 := by omega
    refine ⟨log ++ esd_x509_check env
      ⟨some e, to_s32 (x.line + 1), r.data, r.len, x.nmemb, 0⟩ r.type, ?_⟩
    unfold esd_iter_next
    simp only [hx, if_false, hpull, if_true, hesl, hrc', hr]
    unfold esd_iter_next_pulled esl_list_size esl_header_size esl_sig_size
    simp only [hS]
    split_ifs <;> first | rfl | omega | simp_all
  · intro hx hstep
    unfold esd_iter_next
    simp only [hx, hstep, if_false]
    unfold esl_sig_size
    simp only [hS]
    split_ifs <;> first | rfl | omega | simp_all

/-- Witness for `zero_sig_size_is_rejected_before_division`: the first call
over the 60-byte buffer whose list declares the per-entry size 0. -/
theorem zero_sig_size_is_rejected_before_division_witness :
    SignatureSize (sample_env zero_sig_buf).mem sample_base = 0 ∧
    ∃ log', esd_iter_next (sample_env zero_sig_buf) (some (esd_fresh sample_base 60)) []
      = .ret ⟨-1, some EINVAL,
          some ⟨some ⟨sample_base, 60, 0, sample_base⟩,
            to_s32 ((esd_fresh sample_base 60).line + 1),
            (⟨1, some ⟨sample_base, 60, 0, sample_base⟩, sample_type, sample_base + 28,
              32⟩ : esl_next_ret).data,
            (⟨1, some ⟨sample_base, 60, 0, sample_base⟩, sample_type, sample_base + 28,
              32⟩ : esl_next_ret).len,
            (esd_fresh sample_base 60).nmemb, 0⟩,
          (⟨1, some ⟨sample_base, 60, 0, sample_base⟩, sample_type, sample_base + 28,
              32⟩ : esl_next_ret).type,
          none, none, none⟩ log' :=
  ⟨by decide,
   (zero_sig_size_is_rejected_before_division (sample_env zero_sig_buf)
      (esd_fresh sample_base 60) [] ⟨sample_base, 60, 0, sample_base⟩ (by decide)).1
      ⟨1, some ⟨sample_base, 60, 0, sample_base⟩, sample_type, sample_base + 28, 32⟩ []
      (by decide) (by decide) (by decide) (by decide) rfl⟩

/-! ## Further evaluations at failing inputs -/

/-- C13 at a failing input: over the 64-byte buffer holding one list with a
4-byte header blob and one 32-byte entry, the first `esl_iter_next` call
returns 1 with the list's type and the entries pointer `buf + 28 + 4`, but
with the length 36, the total size minus 28, not the 32 bytes of the entries
region. -/
theorem esl_iter_next_length_includes_header_blob :
    esl_iter_next (sample_env blob_buf) (some (esl_fresh sample_base 64)) [] 0 0
      = .ret ⟨1, some ⟨sample_base, 64, 0, sample_base⟩, sample_type,
          sample_base + 0 + 28 + 4, 64 - 28⟩ [] := by
  decide

/-- C14 at a failing input: over the 44-byte buffer that is exactly one list
with a 16-byte header blob and no entry, the first `esd_iter_next` call returns
1, with an owner read from the 16 bytes after the end of the buffer, and so
does the second call. -/
theorem esd_iter_next_yields_from_empty_list :
    esd_nth (sample_env empty_list_buf) (some (esd_fresh sample_base 44)) [] 0
      = .ret ⟨1, none,
          some ⟨some ⟨sample_base, 44, 0, sample_base⟩, 1, sample_base + 44, 16, 0, 0⟩,
          sample_type, some (List.replicate 16 0), some (sample_base + 60), some 16⟩ [] ∧
    esd_nth (sample_env empty_list_buf) (some (esd_fresh sample_base 44)) [] 1
      = .ret ⟨1, none,
          some ⟨some ⟨sample_base, 44, 0, sample_base⟩, 2, sample_base + 76, 16, 0, 1⟩,
          sample_type, some (List.replicate 16 0), some (sample_base + 92), some 16⟩ [] := by
  decide

/-- C16 at a failing input: over the 92-byte list of two entries, the third
`esd_iter_next` call returns 0 (end of sequence) and the fourth call returns 1,
yielding as an entry the 16 bytes after the end of the buffer. -/
theorem esd_iter_next_yields_after_end_of_sequence :
    esd_nth (sample_env two_entry_buf) (some (esd_fresh sample_base 92)) [] 2
      = .ret ⟨0, none,
          some ⟨some ⟨sample_base, 92, 92, sample_base⟩, 3, sample_base + 60, 64, 2, 0⟩,
          sample_type, none, none, none⟩ [] ∧
    esd_nth (sample_env two_entry_buf) (some (esd_fresh sample_base 92)) [] 3
      = .ret ⟨1, none,
          some ⟨some ⟨sample_base, 92, 92, sample_base⟩, 4, sample_base + 92, 64, 2, 1⟩,
          sample_type, some (List.replicate 16 0), some (sample_base + 108), some 16⟩ [] := by
  decide

/-- C18 at a failing input: over the 44-byte buffer whose list declares total
size 44 and a 48-byte header blob (more than the 16 bytes after the fixed
header) with per-entry size 32, the first `esd_iter_next` call returns 1: the
region length wraps to 2^64 - 32, a multiple of 32, and the entry yielded
starts at offset 76, outside the buffer. -/
theorem esd_iter_next_accepts_oversized_header_blob :
    esd_iter_next (sample_env negative_region_buf) (some (esd_fresh sample_base 44)) []
      = .ret ⟨1, none,
          some ⟨some ⟨sample_base, 44, 0, sample_base⟩, 1, sample_base + 76, 16,
            (2 ^ 64 - 32) / 32, 0⟩,
          sample_type, some (List.replicate 16 0), some (sample_base + 92), some 16⟩ [] := by
  decide

end Dbxtool
